import Mathlib

/-!
# Verification of the MPEG-TS muxer core (`libavformat/mpegtsenc.c`)

A shallow embedding, in Lean 4, of the parts of the ISDB-Tb MPEG-2
transport-stream muxer that the specification talks about: the section
writer, the SDT/NIT table builder fragments, the service-id synthesis of
`mpegts_init`, the SI cadence controller `retransmit_si_info`, the PES
packetiser `mpegts_write_pes`, the M2TS `tp_extra_header` framing and the
first-PTS gate of `mpegts_write_packet_internal`.

Bytes are modelled as `Nat` and masked with `&&& 0xff` at every point where
the C code stores through a `uint8_t *`.  Timestamps (90 kHz PTS/DTS) are
`Option Int`, with `none` standing for `AV_NOPTS_VALUE`.  The cadence
periods that the C source keeps as `double` seconds are modelled as `ℚ`.
-/

set_option autoImplicit false

namespace MpegTS

/-- `TS_PACKET_SIZE` from `avformat/mpegts.h`: one transport packet. -/
def TS_PACKET_SIZE : Nat := 188

/-- `SECTION_LENGTH` from mpegtsenc.c line 145 (buffer bound for a section). -/
def SECTION_LENGTH : Nat := 1020

/-- Modelled from the spec: table ids from `mpegts.h`, which is outside the
provided sources.  The spec names them in §4.2 (PAT 0x00, PMT 0x02, SDT 0x42,
NIT 0x40, EIT 0x4E, TOT 0x73). -/
def PAT_TID : Nat := 0x00

def PMT_TID : Nat := 0x02

def SDT_TID : Nat := 0x42

def NIT_TID : Nat := 0x40

def EIT_TID : Nat := 0x4E

def TOT_TID : Nat := 0x73

/-- `AV_NOPTS_VALUE` (`INT64_MIN`); the model mostly uses `Option Int`
instead, this constant only appears where the C code reads the raw value. -/
def AV_NOPTS_VALUE : Int := -9223372036854775808

/-- Big-endian 16-bit store, as `put16` (two `uint8_t` stores). -/
def be16 (v : Nat) : List Nat := [(v >>> 8) &&& 0xff, v &&& 0xff]

/-- Big-endian 32-bit store (four `uint8_t` stores). -/
def be32 (v : Nat) : List Nat :=
  [(v >>> 24) &&& 0xff, (v >>> 16) &&& 0xff, (v >>> 8) &&& 0xff, v &&& 0xff]

/-- One shift-and-conditionally-xor step of CRC-32/MPEG-2
(polynomial 0x04C11DB7, MSB first, no reflection). -/
def crc32_step (c : Nat) : Nat :=
  if c &&& 0x80000000 ≠ 0 then ((c <<< 1) ^^^ 0x04C11DB7) &&& 0xFFFFFFFF
  else (c <<< 1) &&& 0xFFFFFFFF

/-- Feed one byte into the CRC-32/MPEG-2 accumulator (8 bit steps). -/
def crc32_byte (c b : Nat) : Nat :=
  crc32_step (crc32_step (crc32_step (crc32_step (crc32_step (crc32_step
    (crc32_step (crc32_step (c ^^^ ((b &&& 0xff) <<< 24)))))))))

/-- CRC-32/MPEG-2 of a byte list, initial value 0xFFFFFFFF, no xor-out.
This is `av_bswap32(av_crc(av_crc_get_table(AV_CRC_32_IEEE), -1, buf, n))`
as used at mpegtsenc.c lines 156-157, i.e. the big-endian MPEG-2 CRC. -/
def crc32_mpeg2 (l : List Nat) : Nat := l.foldl crc32_byte 0xFFFFFFFF

/-- The chunking loop of `mpegts_write_section` (lines 164-193): split a
finished section into 188-byte TS packets on the section PID.  The first
packet sets payload_unit_start (0x40 in byte 1) and prepends a zero
pointer_field; the continuity counter is incremented (mod 16) before each
packet; the final packet is right-padded with 0xFF.  `fuel` bounds the
recursion; `buf.length` is always enough. -/
def section_chunks : Nat → Nat → Nat → Bool → List Nat → List (List Nat) × Nat
  | 0, _, cc, _, _ => ([], cc)
  | _ + 1, _, cc, _, [] => ([], cc)
  | fuel + 1, pid, cc, first, b :: rest =>
    let buf := b :: rest
    let cc1 := (cc + 1) &&& 0xf
    let hdr := [0x47, ((pid >>> 8) ||| (if first then 0x40 else 0)) &&& 0xff,
                pid &&& 0xff, (0x10 ||| cc1) &&& 0xff] ++
               (if first then [0] else [])
    let len1 := min (TS_PACKET_SIZE - hdr.length) buf.length
    let pkt := hdr ++ buf.take len1 ++
               List.replicate (TS_PACKET_SIZE - hdr.length - len1) 0xff
    let r := section_chunks fuel pid cc1 false (buf.drop len1)
    (pkt :: r.1, r.2)

/-- `mpegts_write_section` (lines 148-194): compute the CRC over all but the
last four bytes, store it big-endian in those four bytes, then chunk the
section into TS packets.  Returns the packets and the updated continuity
counter. -/
def mpegts_write_section (pid cc : Nat) (buf : List Nat) :
    List (List Nat) × Nat :=
  let base := buf.take (buf.length - 4)
  let sec := base ++ be32 (crc32_mpeg2 base)
  section_chunks sec.length pid cc true sec

/-- The section header plus payload built by `mpegts_write_section1`
(lines 219-226), with four placeholder bytes where the CRC will go
(the C buffer leaves them uninitialised; `mpegts_write_section`
overwrites them). -/
def mpegts_section1_bytes (tid id version sec_num last_sec_num : Nat)
    (buf : List Nat) : List Nat :=
  let flags : Nat := if tid = SDT_TID then 0xf000 else 0xb000
  let lenField := flags ||| (buf.length + 5 + 4)
  (tid &&& 0xff) :: ((lenField >>> 8) &&& 0xff) :: (lenField &&& 0xff) ::
    ((id >>> 8) &&& 0xff) :: (id &&& 0xff) ::
    ((0xc1 ||| (version <<< 1)) &&& 0xff) ::
    (sec_num &&& 0xff) :: (last_sec_num &&& 0xff) :: (buf ++ [0, 0, 0, 0])

/-- `mpegts_write_section1` (lines 205-230): wrap a payload into a section.
`tot_len = 3 + 5 + len + 4`; if it exceeds `SECTION_LENGTH` the call fails
with `AVERROR_INVALIDDATA` (modelled as `none`) and emits nothing;
otherwise the section is serialised and chunked. -/
def mpegts_write_section1 (pid cc tid id version sec_num last_sec_num : Nat)
    (buf : List Nat) : Option (List (List Nat) × Nat) :=
  let tot_len := 3 + 5 + buf.length + 4
  if tot_len > SECTION_LENGTH then none
  else some (mpegts_write_section pid cc
              (mpegts_section1_bytes tid id version sec_num last_sec_num buf))

/-- The 12-bit section_length field of a serialised section: low nibble of
byte 1, then byte 2. -/
def sectionLength12 (sec : List Nat) : Nat :=
  ((sec.getD 1 0) &&& 0xf) * 256 + sec.getD 2 0

/-- `putstr8` (lines 685-699): length-prefixed string (one `uint8_t`
length byte, then the bytes). -/
def putstr8 (s : List Nat) : List Nat := (s.length &&& 0xff) :: s

/-- The service_type byte chosen by `mpegts_write_sdt` at lines 724-729.
The C test is `service->sid & 0x18 >> 3`, which by C operator precedence
is `sid & (0x18 >> 3)`, i.e. `sid & 3`. -/
def sdt_service_type (sid : Nat) : Nat :=
  if sid &&& (0x18 >>> 3) ≠ 0 then 0xC0 else 0x01

/-- One service entry of the SDT loop body (lines 711-739): sid, the
EIT-flags byte 0xFC, the running_status/free_ca/descriptor-loop-length
16-bit field (running_status = 4, free_ca_mode = 0), then the single
service descriptor 0x48 with service_type, provider name and name.  The
two back-patched length fields are written here with their final values. -/
def sdt_service_entry (sid : Nat) (provider name : List Nat) : List Nat :=
  let desc_body : List Nat :=
    sdt_service_type sid :: (putstr8 provider ++ putstr8 name)
  let desc_loop_len := 2 + desc_body.length
  let val := (4 <<< 13) ||| (0 <<< 12) ||| desc_loop_len
  ((sid >>> 8) &&& 0xff) :: (sid &&& 0xff) :: 0xfc ::
    ((val >>> 8) &&& 0xff) :: (val &&& 0xff) ::
    0x48 :: (desc_body.length &&& 0xff) :: desc_body

/-- The frequency field of the terrestrial-delivery-system descriptor in
`mpegts_write_nit` (line 885).  The C expression is
`( 473 + 6 * ( ts->physical_channel - 14 ) +1/7 ) * 7` evaluated in
integer arithmetic, in which `1/7` is 0 (`Nat` division is the same
truncating division for these nonnegative operands). -/
def nit_frequency (physical_channel : Nat) : Nat :=
  (473 + 6 * (physical_channel - 14) + 1 / 7) * 7

/-- `calculated_FHD_service_ID` for transmission profile 1
(mpegts_init line 1237). -/
def calculated_FHD_service_ID (onid : Nat) : Nat :=
  ((onid &&& 0x7FF) <<< 5) ||| (0x0 <<< 3) ||| 0x0

/-- `calculated_1SEG_service_ID` for transmission profile 1
(mpegts_init line 1245). -/
def calculated_1SEG_service_ID (onid : Nat) : Nat :=
  ((onid &&& 0x7FF) <<< 5) ||| (0x3 <<< 3) ||| 0x1

/-- The services created by `mpegts_init` for transmission profile 1
(lines 1233-1253): exactly two, FHD then one-seg, as (sid, pmt_pid) pairs.
`mpegts_add_service` assigns `pmt.pid = pmt_start_pid + nb_services`
at the moment of addition (line 1158). -/
def mpegts_init_profile1_services (onid pmt_start_pid : Nat) :
    List (Nat × Nat) :=
  [(calculated_FHD_service_ID onid, pmt_start_pid + 0),
   (calculated_1SEG_service_ID onid, pmt_start_pid + 1)]

/-- The continuity-counter fields set by `mpegts_init`: the five section
contexts (lines 1471-1490), every service PMT context (e.g. lines 1242,
1250) and every stream (line 1559). -/
structure InitCC where
  pat_cc : Nat
  sdt_cc : Nat
  nit_cc : Nat
  tot_cc : Nat
  eit_cc : Nat
  pmt_cc : Nat
  stream_cc : Nat
  deriving DecidableEq

/-- The values assigned by `mpegts_init`: every counter starts at 15 so
that the first increment wraps to 0. -/
def mpegts_init_cc : InitCC :=
  { pat_cc := 15, sdt_cc := 15, nit_cc := 15, tot_cc := 15, eit_cc := 15,
    pmt_cc := 15, stream_cc := 15 }

/-- `mpegts_prefix_m2ts_header` (lines 1182-1192): when m2ts mode is on,
the 4-byte `tp_extra_header` is `pcr % 0x3fffffff` written big-endian
(the `AV_RB32` round-trip through the `uint32_t` stores the value
big-endian on either endianness). -/
def m2ts_tp_extra_header (pcr : Nat) : List Nat := be32 (pcr % 0x3fffffff)

/-- `section_write_packet` (lines 1194-1199): the m2ts header, when
enabled, immediately precedes the 188-byte packet in the sink. -/
def section_write_packet (m2ts : Bool) (pcr : Nat) (pkt : List Nat) :
    List Nat :=
  (if m2ts then m2ts_tp_extra_header pcr else []) ++ pkt

/-! ## The SI cadence controller (`retransmit_si_info`, lines 1709-1767) -/

/-- The tables a cadence cycle can write.  `pmt i` is the PMT of the
`i`-th service (written by the PAT block, lines 1764-1765). -/
inductive SITable where
  | sdt : SITable
  | nit : SITable
  | tot : SITable
  | eit : SITable
  | pat : SITable
  | pmt : Nat → SITable
  deriving DecidableEq

/-- Position of a table inside one cadence cycle, for order statements. -/
def siRank : SITable → Nat
  | .sdt => 0
  | .nit => 1
  | .tot => 2
  | .eit => 3
  | .pat => 4
  | .pmt _ => 5

/-- The shared per-table due condition of `retransmit_si_info`
(e.g. lines 1714-1717 for the SDT):
`++count == period || (dts set && last unset) ||
 (dts set && dts - last >= period_seconds*90000.0)`.
`count`/`period` are the packet counters, `last` the 90 kHz timestamp of
the previous emission (`none` = `AV_NOPTS_VALUE`), `periodSec` the
configured period in seconds (a C `double`, modelled as `ℚ`).  Because
`||` short-circuits, the third C disjunct is only evaluated when `last`
is set. -/
def si_due (count period : Int) (last : Option Int) (periodSec : ℚ)
    (dts : Option Int) : Bool :=
  decide (count + 1 = period) || (dts.isSome && last.isNone) ||
    (match dts, last with
     | some d, some l => decide (((d - l : Int) : ℚ) ≥ periodSec * 90000)
     | _, _ => false)

/-- `FFMAX(dts, last)` with `AV_NOPTS_VALUE` as the bottom element, as in
`ts->last_sdt_ts = FFMAX(dts, ts->last_sdt_ts)` (guarded by `dts` being
set). -/
def ffmax_ts (dts last : Option Int) : Option Int :=
  match dts with
  | none => last
  | some d => some (match last with | none => d | some l => max d l)

/-- The mutable cadence state of `MpegTSWrite` used by
`retransmit_si_info`: per-table packet counters and periods, wall-clock
timestamps and second periods, and the number of services (for the PMT
loop). -/
structure SICadence where
  sdt_packet_count : Int
  sdt_packet_period : Int
  last_sdt_ts : Option Int
  sdt_period : ℚ
  nit_packet_count : Int
  nit_packet_period : Int
  last_nit_ts : Option Int
  nit_period : ℚ
  tot_packet_count : Int
  tot_packet_period : Int
  last_tot_ts : Option Int
  tot_period : ℚ
  eit_packet_count : Int
  eit_packet_period : Int
  last_eit_ts : Option Int
  eit_period : ℚ
  pat_packet_count : Int
  pat_packet_period : Int
  last_pat_ts : Option Int
  pat_period : ℚ
  nb_services : Nat
  deriving DecidableEq

/-- Due condition of the SDT block (lines 1714-1717). -/
def sdtDue (st : SICadence) (dts : Option Int) : Bool :=
  si_due st.sdt_packet_count st.sdt_packet_period st.last_sdt_ts
    st.sdt_period dts

/-- Due condition of the NIT block (lines 1724-1727). -/
def nitDue (st : SICadence) (dts : Option Int) : Bool :=
  si_due st.nit_packet_count st.nit_packet_period st.last_nit_ts
    st.nit_period dts

/-- Due condition of the TOT block (lines 1735-1738). -/
def totDue (st : SICadence) (dts : Option Int) : Bool :=
  si_due st.tot_packet_count st.tot_packet_period st.last_tot_ts
    st.tot_period dts

/-- Due condition of the EIT block (lines 1746-1749). -/
def eitDue (st : SICadence) (dts : Option Int) : Bool :=
  si_due st.eit_packet_count st.eit_packet_period st.last_eit_ts
    st.eit_period dts

/-- Due condition of the PAT block (lines 1756-1759): the shared condition
or `force_pat`. -/
def patDue (st : SICadence) (force_pat : Bool) (dts : Option Int) : Bool :=
  si_due st.pat_packet_count st.pat_packet_period st.last_pat_ts
    st.pat_period dts || force_pat

/-- `retransmit_si_info` (lines 1709-1767): the blocks run in source
order SDT, NIT, TOT, EIT, PAT; a firing block resets its counter to 0,
advances `last_*_ts` (when a DTS is available) and writes its table; the
PAT block additionally writes every service PMT right after the PAT.  A
non-firing block keeps the incremented counter (the C `++`). -/
def retransmit_si_info (st : SICadence) (force_pat : Bool)
    (dts : Option Int) : List SITable × SICadence :=
  let s := sdtDue st dts
  let n := nitDue st dts
  let t := totDue st dts
  let e := eitDue st dts
  let p := patDue st force_pat dts
  ((if s then [SITable.sdt] else []) ++
   (if n then [SITable.nit] else []) ++
   (if t then [SITable.tot] else []) ++
   (if e then [SITable.eit] else []) ++
   (if p then SITable.pat :: (List.range st.nb_services).map SITable.pmt
    else []),
   { st with
     sdt_packet_count := if s then 0 else st.sdt_packet_count + 1
     last_sdt_ts := if s then ffmax_ts dts st.last_sdt_ts else st.last_sdt_ts
     nit_packet_count := if n then 0 else st.nit_packet_count + 1
     last_nit_ts := if n then ffmax_ts dts st.last_nit_ts else st.last_nit_ts
     tot_packet_count := if t then 0 else st.tot_packet_count + 1
     last_tot_ts := if t then ffmax_ts dts st.last_tot_ts else st.last_tot_ts
     eit_packet_count := if e then 0 else st.eit_packet_count + 1
     last_eit_ts := if e then ffmax_ts dts st.last_eit_ts else st.last_eit_ts
     pat_packet_count := if p then 0 else st.pat_packet_count + 1
     last_pat_ts := if p then ffmax_ts dts st.last_pat_ts
                    else st.last_pat_ts })

/-! ## The PES packetiser (`mpegts_write_pes`, lines 1876-2128) -/

/-- Codec class (`st->codecpar->codec_type`). -/
inductive CodecType where
  | video : CodecType
  | audio : CodecType
  | subtitle : CodecType
  | data : CodecType
  deriving DecidableEq

/-- The codec ids `mpegts_write_pes` distinguishes; everything else is
`other`. -/
inductive CodecId where
  | mpeg2video : CodecId
  | h264 : CodecId
  | dirac : CodecId
  | mp2 : CodecId
  | mp3 : CodecId
  | aac : CodecId
  | ac3 : CodecId
  | dvb_subtitle : CodecId
  | dvb_teletext : CodecId
  | klv : CodecId
  | other : CodecId
  deriving DecidableEq

/-- The per-mux and per-stream configuration `mpegts_write_pes` reads.
`delay` is `av_rescale(s->max_delay, 90000, AV_TIME_BASE)` (line 1887)
in 90 kHz ticks; `first_pcr` and `mux_rate` feed `get_pcr`. -/
structure PesConfig where
  codec_type : CodecType
  codec_id : CodecId
  mux_rate : Nat
  m2ts_mode : Bool
  omit_video_pes_length : Bool
  pat_pmt_at_frames : Bool
  delay : Int
  first_pcr : Int
  deriving DecidableEq

/-- `av_rescale` with the default `AV_ROUND_NEAR_INF` rounding, for the
nonnegative operands `get_pcr` uses. -/
def av_rescale (a b c : Nat) : Nat := (a * b + c / 2) / c

/-- `get_pcr` (lines 1176-1180): project the PCR at sink byte offset
`pos` from the mux rate and the initial PCR. -/
def get_pcr (cfg : PesConfig) (pos : Nat) : Int :=
  (av_rescale (pos + 11) (8 * 27000000) cfg.mux_rate : Nat) + cfg.first_pcr

/-- `write_pts` (lines 1825-1837): the 5-byte PTS/DTS encoding with the
4-bit prefix and marker bits.  The C routine manipulates an `int64_t`;
the byte layout is that of its nonnegative (33-bit, already wrapped)
timestamps, so the model converts through `Int.toNat`. -/
def write_pts (fourbits : Nat) (pts : Int) : List Nat :=
  let p := pts.toNat
  [((fourbits <<< 4) ||| (((p >>> 30) &&& 0x07) <<< 1) ||| 1) &&& 0xff,
   (((((p >>> 15) &&& 0x7fff) <<< 1) ||| 1) >>> 8) &&& 0xff,
   ((((p >>> 15) &&& 0x7fff) <<< 1) ||| 1) &&& 0xff,
   ((((p &&& 0x7fff) <<< 1) ||| 1) >>> 8) &&& 0xff,
   (((p &&& 0x7fff) <<< 1) ||| 1) &&& 0xff]

/-- `write_pcr_bits` (lines 1769-1781): 33-bit base = pcr/300 and 9-bit
extension = pcr%300 laid out over six bytes. -/
def write_pcr_bits (pcr : Nat) : List Nat :=
  let pcr_low := pcr % 300
  let pcr_high := pcr / 300
  [(pcr_high >>> 25) &&& 0xff, (pcr_high >>> 17) &&& 0xff,
   (pcr_high >>> 9) &&& 0xff, (pcr_high >>> 1) &&& 0xff,
   ((pcr_high <<< 7) ||| (pcr_low >>> 8) ||| 0x7e) &&& 0xff,
   pcr_low &&& 0xff]

/-- `mpegts_insert_null_packet` (lines 1784-1797): PID 0x1FFF, payload
flag, body all 0xFF. -/
def null_packet : List Nat :=
  [0x47, 0x00 ||| 0x1f, 0xff, 0x10] ++ List.replicate 184 0xff

/-- `mpegts_insert_pcr_only` (lines 1800-1823): adaptation-field-only
packet carrying a PCR; the continuity counter is written but not
incremented. -/
def pcr_only_packet (pid cc : Nat) (pcr : Nat) : List Nat :=
  [0x47, (pid >>> 8) &&& 0xff, pid &&& 0xff, (0x20 ||| cc) &&& 0xff,
   TS_PACKET_SIZE - 5, 0x10] ++ write_pcr_bits pcr ++
  List.replicate 176 0xff

/-- The PES stream_id byte (lines 1961-1989). -/
def pes_stream_id (cfg : PesConfig) (stream_id : Option Nat) : Nat :=
  match cfg.codec_type with
  | .video => if cfg.codec_id = .dirac then 0xfd else 0xe0
  | .audio =>
    if cfg.codec_id = .mp2 ∨ cfg.codec_id = .mp3 ∨ cfg.codec_id = .aac then
      0xc0
    else if cfg.codec_id = .ac3 ∧ cfg.m2ts_mode then 0xfd
    else 0xbd
  | .data => (stream_id.getD 0xfc) &&& 0xff
  | .subtitle => 0xbd

/-- The PES header flags byte (lines 1990-2021): 0x80 when a PTS is
written, 0x40 when a DTS is written (both timestamps set and different),
0x01 when a PES extension follows (Dirac video, or AC-3 audio in m2ts
mode). -/
def pes_flags (pts dts : Option Int) (diracVideo ac3m2ts : Bool) : Nat :=
  (if pts.isSome then 0x80 else 0) |||
  (if dts.isSome ∧ pts.isSome ∧ dts ≠ pts then 0x40 else 0) |||
  (if diracVideo ∨ ac3m2ts then 0x01 else 0)

/-- The PES header_data_length before the teletext override
(increments at lines 1992-2021). -/
def pes_base_header_len (pts dts : Option Int) (diracVideo ac3m2ts : Bool) :
    Nat :=
  (if pts.isSome then 5 else 0) +
  (if dts.isSome ∧ pts.isSome ∧ dts ≠ pts then 5 else 0) +
  (if diracVideo then 3 else 0) + (if ac3m2ts then 3 else 0)

/-- The header_data_length actually written: teletext headers are padded
to 0x24 (lines 2022-2025). -/
def pes_header_data_length (pts dts : Option Int)
    (diracVideo ac3m2ts teletext : Bool) : Nat :=
  if teletext then 0x24 else pes_base_header_len pts dts diracVideo ac3m2ts

/-- The PES_packet_length field (lines 2026-2036): payload plus the
header bytes after the length field; DVB subtitles add three bytes; a
value above 0xFFFF becomes 0; video with `omit_video_pes_length` becomes
0. -/
def pes_packet_length (cfg : PesConfig) (payload_size header_len : Nat) :
    Nat :=
  let len := payload_size + header_len + 3
  let len :=
    if cfg.codec_type = .subtitle ∧ cfg.codec_id = .dvb_subtitle then len + 3
    else len
  let len := if len > 0xffff then 0 else len
  if cfg.omit_video_pes_length ∧ cfg.codec_type = .video then 0 else len

/-- The optional 5-byte PTS field (line 2046-2049). -/
def pes_pts_seg (flags : Nat) (pts : Option Int) : List Nat :=
  match pts with
  | some p => write_pts (flags >>> 6) p
  | none => []

/-- The optional 5-byte DTS field (lines 2050-2053): written exactly when
both timestamps are set and differ. -/
def pes_dts_seg (pts dts : Option Int) : List Nat :=
  if dts.isSome ∧ pts.isSome ∧ dts ≠ pts then write_pts 1 (dts.getD 0)
  else []

/-- The optional part of the PES header, after the 9 fixed bytes: the
PTS and DTS fields, the Dirac and Blu-ray-AC3 extensions
(lines 2054-2070), the DVB-subtitle data prefix (lines 2073-2079) and
the teletext 0xFF padding to header length 0x24 (lines 2080-2083). -/
def pes_header_opt (flags : Nat) (ptsE dtsE : Option Int)
    (dv am sub tel : Bool) (base : Nat) : List Nat :=
  pes_pts_seg flags ptsE ++ pes_dts_seg ptsE dtsE ++
  (if dv then [0x01, 0x81, 0x60] else []) ++
  (if am then [0x01, 0x81, 0x71] else []) ++
  (if sub then [0x20, 0x00] else []) ++
  (if tel then List.replicate (0x24 - base) 0xff else [])

/-- The whole PES header built by the `is_start` block (lines 1952-2084),
together with the effective PTS/DTS after the asynchronous-KLV override
(`stream_id == 0xbd` on a data stream clears both, line 1978-1979).
Returns (header bytes, pts, dts). -/
def pes_header (cfg : PesConfig) (stream_id : Option Nat)
    (pts dts : Option Int) (payload_size : Nat) :
    List Nat × Option Int × Option Int :=
  let klv := cfg.codec_type = .data ∧ stream_id = some 0xbd
  let ptsE := if klv then none else pts
  let dtsE := if klv then none else dts
  let dv : Bool := decide (cfg.codec_type = .video) &&
                   decide (cfg.codec_id = .dirac)
  let am : Bool := cfg.m2ts_mode && decide (cfg.codec_type = .audio) &&
                   decide (cfg.codec_id = .ac3)
  let sub : Bool := decide (cfg.codec_type = .subtitle) &&
                    decide (cfg.codec_id = .dvb_subtitle)
  let tel : Bool := decide (cfg.codec_type = .subtitle) &&
                    decide (cfg.codec_id = .dvb_teletext)
  let flags := pes_flags ptsE dtsE dv am
  let hdl := pes_header_data_length ptsE dtsE dv am tel
  let len := pes_packet_length cfg payload_size hdl
  let val := 0x80 |||
    (if cfg.codec_type = .subtitle ∨ cfg.codec_type = .data then 0x04
     else 0)
  (0x00 :: 0x00 :: 0x01 :: pes_stream_id cfg stream_id ::
     ((len >>> 8) &&& 0xff) :: (len &&& 0xff) ::
     (val &&& 0xff) :: (flags &&& 0xff) :: (hdl &&& 0xff) ::
     pes_header_opt flags ptsE dtsE dv am sub tel
       (pes_base_header_len ptsE dtsE dv am),
   ptsE, dtsE)

/-- `set_af_flag` (lines 1840-1853) on the structured adaptation field:
`none` means no AF yet; `some (flags, pcr)` is an AF with its flags byte
and the PCR bytes appended by `extend_af`. -/
def set_af_flag (af : Option (Nat × List Nat)) (flag : Nat) :
    Option (Nat × List Nat) :=
  match af with
  | none => some (flag, [])
  | some (fl, p) => some (fl ||| flag, p)

/-- Serialise the adaptation field: length byte (flags byte plus PCR
bytes), flags, PCR. -/
def afBytes : Option (Nat × List Nat) → List Nat
  | none => []
  | some (fl, pcrB) => (1 + pcrB.length) :: fl :: pcrB

/-- Byte 3 of a PES TS packet header (line 1931 plus the
adaptation-field bit of `set_af_flag`): payload flag 0x10, the fresh
continuity counter, and 0x20 when an adaptation field is present. -/
def ts_pes_byte3 (cc1 : Nat) (af : Bool) : Nat :=
  ((0x10 ||| cc1) ||| (if af then 0x20 else 0)) &&& 0xff

/-- The per-stream / per-call state threaded through the packetisation
loop: PID and continuity counter of the stream, the service PCR fields,
the cadence state, the sink byte position, the (possibly overridden)
timestamps, and the `is_start` / `force_pat` loop variables. -/
structure LoopSt where
  pid : Nat
  cc : Nat
  prev_payload_key : Bool
  pcr_pid : Nat
  pcr_packet_count : Int
  pcr_packet_period : Int
  si : SICadence
  pos : Nat
  pts : Option Int
  dts : Option Int
  is_start : Bool
  force_pat : Bool
  deriving DecidableEq

/-- One item written to the sink by `mpegts_write_pes`: an SI table
(delegated to the table writers), a filler packet (null or PCR-only,
lines 1911-1920), or a TS packet of the PES itself, split into the
header/stuffing part and the payload chunk that fills the packet to 188
bytes (the sink sees their concatenation). -/
inductive TSOut where
  | si : SITable → TSOut
  | fill : List Nat → TSOut
  | pes : List Nat → List Nat → TSOut
  deriving DecidableEq

/-- Bytes written per packet at the sink (the m2ts prefix adds 4).  The
byte position also advances when SI tables are written; the SI packet
counts do not affect any packet layout below, only the CBR PCR values,
and are not tracked. -/
def sinkBytes (cfg : PesConfig) : Nat :=
  TS_PACKET_SIZE + (if cfg.m2ts_mode then 4 else 0)

/-- The PCR-counter update at the top of each loop iteration
(lines 1900-1909): when this stream carries the PCR the counter is
bumped (every packet in CBR, once per PES in VBR) and, on reaching the
period, reset with a PCR write scheduled.  Returns the new counter and
the `write_pcr` flag. -/
def pes_pcr_step (cfg : PesConfig) (st : LoopSt) : Int × Bool :=
  if st.pid = st.pcr_pid then
    let c := if cfg.mux_rate > 1 ∨ st.is_start then st.pcr_packet_count + 1
             else st.pcr_packet_count
    if c ≥ st.pcr_packet_period then (0, true) else (c, false)
  else (st.pcr_packet_count, false)

/-- The CBR catch-up test at lines 1911-1912: the muxer stuffs a filler
packet while the projected PCR trails the DTS by more than the delay. -/
def pes_need_fill (cfg : PesConfig) (st : LoopSt) : Bool :=
  decide (cfg.mux_rate > 1) && st.dts.isSome &&
    decide (st.dts.getD 0 - (get_pcr cfg st.pos).tdiv 300 > cfg.delay)

/-- The filler packet of lines 1913-1917: PCR-only when a PCR write is
scheduled, otherwise a null packet. -/
def pes_fill_packet (cfg : PesConfig) (st : LoopSt) (write_pcr : Bool) :
    List Nat :=
  if write_pcr then pcr_only_packet st.pid st.cc (get_pcr cfg st.pos).toNat
  else null_packet

/-- Assemble one TS packet around the payload (lines 2086-2120): take the
TS header, adaptation field and optional PES header already written into
`buf`, chunk as much payload as fits, and when the packet is short grow
the adaptation field with 0xFF stuffing — enlarging an existing field
after its PCR bytes, or creating one (a bare length byte for a single
stuffing byte, else a length byte, a zero flags byte and 0xFF fill).
Returns (header+stuffing, chunk, remaining payload). -/
def ts_pkt_assemble (b1 b2 : Nat) (cc1 : Nat)
    (af : Option (Nat × List Nat)) (pesH : List Nat)
    (payload2 : List Nat) : List Nat × List Nat × List Nat :=
  let b3 := ts_pes_byte3 cc1 af.isSome
  let headerPre := [0x47, b1, b2, b3] ++ afBytes af ++ pesH
  let header_len := headerPre.length
  let len := min (TS_PACKET_SIZE - header_len) payload2.length
  let stuffing := TS_PACKET_SIZE - header_len - len
  let hdrFinal :=
    if stuffing = 0 then headerPre
    else
      match af with
      | some (fl, pcrB) =>
        [0x47, b1, b2, b3] ++
          ((1 + pcrB.length + stuffing) :: fl :: pcrB ++
           List.replicate stuffing 0xff) ++ pesH
      | none =>
        [0x47, b1, b2, (b3 ||| 0x20) &&& 0xff] ++
          ((stuffing - 1) ::
           (if stuffing ≥ 2 then 0x00 :: List.replicate (stuffing - 2) 0xff
            else [])) ++ pesH
  (hdrFinal, payload2.take len, payload2.drop len)

/-- The adaptation field built at lines 1932-1951: the random-access
flag on the first packet of a keyframe with a PTS (which also schedules
a PCR write on the PCR PID), then the PCR flag and bytes when a PCR
write is scheduled.  Returns the field and the updated `write_pcr`. -/
def pes_af (cfg : PesConfig) (key : Bool) (st : LoopSt)
    (write_pcr : Bool) : Option (Nat × List Nat) × Bool :=
  let afKey : Option (Nat × List Nat) × Bool :=
    if key && st.is_start && st.pts.isSome then
      (set_af_flag none 0x40, write_pcr ∨ st.pid = st.pcr_pid)
    else (none, write_pcr)
  let pcrVal : Int :=
    if cfg.mux_rate > 1 then get_pcr cfg st.pos
    else (st.dts.getD AV_NOPTS_VALUE - cfg.delay) * 300
  if afKey.2 then
    match set_af_flag afKey.1 0x10 with
    | some (fl, _) => (some (fl, write_pcr_bits pcrVal.toNat), afKey.2)
    | none => (none, afKey.2)
  else (afKey.1, afKey.2)

/-- One normal TS packet of the PES (lines 1922-2125): TS header,
adaptation field, the PES header on the first packet, stuffing grown
inside the adaptation field, the payload chunk flush against the packet
end.  Returns ((header+stuffing bytes, payload chunk), next state,
remaining payload). -/
def pes_emit (cfg : PesConfig) (key : Bool) (stream_id : Option Nat)
    (st : LoopSt) (payload : List Nat) (write_pcr : Bool) :
    (List Nat × List Nat) × LoopSt × List Nat :=
  let cc1 := (st.cc + 1) &&& 0xf
  let b1 := ((st.pid >>> 8) ||| (if st.is_start then 0x40 else 0)) &&& 0xff
  let af := (pes_af cfg key st write_pcr).1
  let hdrPes :=
    if st.is_start then pes_header cfg stream_id st.pts st.dts payload.length
    else ([], st.pts, st.dts)
  let payload2 : List Nat :=
    if st.is_start && decide (cfg.codec_type = CodecType.subtitle) &&
       decide (cfg.codec_id = CodecId.dvb_subtitle) then payload ++ [0xff]
    else payload
  let a := ts_pkt_assemble b1 (st.pid &&& 0xff) cc1 af hdrPes.1 payload2
  ((a.1, a.2.1),
   { st with cc := cc1, is_start := false,
             pts := hdrPes.2.1, dts := hdrPes.2.2,
             pos := st.pos + sinkBytes cfg },
   a.2.2)

/-- The body of the `while (payload_size > 0)` loop of
`mpegts_write_pes` (lines 1896-2126), as a fuel-indexed recursion.  Each
iteration runs the cadence controller, updates the PCR counter, then
either stuffs a filler packet and retries (CBR catch-up) or emits one
TS packet of the PES and recurses on the remaining payload.  Returns
`none` only on fuel exhaustion. -/
def write_pes_loop (cfg : PesConfig) (key : Bool) (stream_id : Option Nat) :
    Nat → LoopSt → List Nat → Option (List TSOut × LoopSt)
  | 0, st, payload => if payload.isEmpty then some ([], st) else none
  | fuel + 1, st, payload =>
    if payload.isEmpty then some ([], st)
    else
      let r := retransmit_si_info st.si st.force_pat st.dts
      let st1 := { st with si := r.2, force_pat := false }
      let pc := pes_pcr_step cfg st1
      let st2 := { st1 with pcr_packet_count := pc.1 }
      if pes_need_fill cfg st2 then
        match write_pes_loop cfg key stream_id fuel
                { st2 with pos := st2.pos + sinkBytes cfg } payload with
        | none => none
        | some (outs, stF) =>
          some (r.1.map TSOut.si ++
                  TSOut.fill (pes_fill_packet cfg st2 pc.2) :: outs, stF)
      else
        let e := pes_emit cfg key stream_id st2 payload pc.2
        match write_pes_loop cfg key stream_id fuel e.2.1 e.2.2 with
        | none => none
        | some (outs, stF) =>
          some (r.1.map TSOut.si ++ TSOut.pes e.1.1 e.1.2 :: outs, stF)

/-- `mpegts_write_pes` entry (lines 1876-1895 and 2127): compute
`force_pat` from keyframe transitions and the `PAT_PMT_AT_FRAMES` flag,
run the loop with `is_start` set, and record `prev_payload_key`. -/
def mpegts_write_pes (cfg : PesConfig) (key : Bool)
    (stream_id : Option Nat) (fuel : Nat) (st0 : LoopSt)
    (payload : List Nat) (pts dts : Option Int) :
    Option (List TSOut × LoopSt) :=
  let force_pat :=
    (cfg.codec_type = CodecType.video ∧ key ∧ ¬st0.prev_payload_key) ∨
    (cfg.pat_pmt_at_frames ∧ cfg.codec_type = CodecType.video)
  match write_pes_loop cfg key stream_id fuel
          { st0 with pts := pts, dts := dts, is_start := true,
                     force_pat := force_pat } payload with
  | none => none
  | some (outs, stF) => some (outs, { stF with prev_payload_key := key })

/-- The PES TS packets among the sink writes, as (header+stuffing,
payload chunk) pairs. -/
def pesOuts (outs : List TSOut) : List (List Nat × List Nat) :=
  outs.filterMap fun o =>
    match o with
    | .pes h c => some (h, c)
    | _ => none

/-- The payload as the loop chunks it: a DVB-subtitle PES gets one extra
byte (`payload_size++` at line 2030) whose value is the 0xFF
end-of-PES-data marker written at line 2117; an empty payload never
enters the loop. -/
def effPayload (cfg : PesConfig) (is_start : Bool) (payload : List Nat) :
    List Nat :=
  if payload.isEmpty then []
  else if is_start && decide (cfg.codec_type = CodecType.subtitle) &&
          decide (cfg.codec_id = CodecId.dvb_subtitle) then
    payload ++ [0xff]
  else payload

/-- A small concrete cadence state (counters fresh, periods 5 packets,
1 second, two services), used to exercise the models on closed runs. -/
def cadenceX : SICadence :=
  { sdt_packet_count := 0, sdt_packet_period := 5, last_sdt_ts := none,
    sdt_period := 1,
    nit_packet_count := 0, nit_packet_period := 5, last_nit_ts := none,
    nit_period := 1,
    tot_packet_count := 0, tot_packet_period := 5, last_tot_ts := none,
    tot_period := 1,
    eit_packet_count := 0, eit_packet_period := 5, last_eit_ts := none,
    eit_period := 1,
    pat_packet_count := 0, pat_packet_period := 5, last_pat_ts := none,
    pat_period := 1,
    nb_services := 2 }

/-- A small concrete VBR H.264 video configuration. -/
def pesCfgX : PesConfig :=
  { codec_type := CodecType.video, codec_id := CodecId.h264,
    mux_rate := 1, m2ts_mode := false, omit_video_pes_length := true,
    pat_pmt_at_frames := false, delay := 0, first_pcr := 0 }

/-- A small concrete per-stream state: PID 0x0100, counter fresh from
init, not the PCR stream. -/
def pesStX : LoopSt :=
  { pid := 0x100, cc := 15, prev_payload_key := false, pcr_pid := 0x1fff,
    pcr_packet_count := 0, pcr_packet_period := 5, si := cadenceX,
    pos := 0, pts := none, dts := none, is_start := true,
    force_pat := false }

/-! ## The first-PTS gate (`mpegts_write_packet_internal`,
lines 2256-2260) -/

/-- The gate at the top of `mpegts_write_packet_internal`: a missing PTS
while `first_pts_check` is set aborts with `AVERROR_INVALIDDATA`
(modelled as `none`) before anything is written; `first_pts_check` is
cleared only after the check passes (line 2260 runs only on the
non-error path). -/
def first_pts_gate (first_pts_check : Bool) (pts : Option Int) :
    Option Bool :=
  if first_pts_check ∧ pts = none then none else some false

/-- Run a sequence of packets through the gate, recording for each call
whether it was rejected; a rejected call leaves `first_pts_check`
unchanged (the C function returns before clearing it). -/
def first_pts_gate_run : Bool → List (Option Int) → List Bool
  | _, [] => []
  | chk, pts :: rest =>
    match first_pts_gate chk pts with
    | none => true :: first_pts_gate_run chk rest
    | some chk1 => false :: first_pts_gate_run chk1 rest

end MpegTS

namespace MpegTS

set_option maxRecDepth 4000 in
/-- Finite check: extracting the 12-bit length back out of the
flags-or field, for both reserved prefixes. -/
theorem lor_len_field : ∀ L : Nat, L < 1024 →
    ((((0xb000 ||| L) >>> 8) &&& 0xff) &&& 0xf) * 256 +
      ((0xb000 ||| L) &&& 0xff) = L ∧
    ((((0xf000 ||| L) >>> 8) &&& 0xff) &&& 0xf) * 256 +
      ((0xf000 ||| L) &&& 0xff) = L := by decide

/-- Claim C1 (amended): `mpegts_write_section1` succeeds, emitting the
section, iff `payload_len + 9 ≤ 1017` (i.e. the total section length
`payload_len + 12` fits `SECTION_LENGTH = 1020`); on success the 12-bit
section_length field holds `payload_len + 9`; otherwise it returns
`AVERROR_INVALIDDATA` and emits nothing. -/
theorem C1_amended_thm :
    ∀ (pid cc tid id version sec_num last_sec_num : Nat) (buf : List Nat),
    (buf.length + 9 ≤ 1017 →
      mpegts_write_section1 pid cc tid id version sec_num last_sec_num buf =
        some (mpegts_write_section pid cc
          (mpegts_section1_bytes tid id version sec_num last_sec_num buf)) ∧
      sectionLength12
          (mpegts_section1_bytes tid id version sec_num last_sec_num buf) =
        buf.length + 9) ∧
    (1017 < buf.length + 9 →
      mpegts_write_section1 pid cc tid id version sec_num last_sec_num buf =
        none) := by
  intro pid cc tid id version sec_num last_sec_num buf
  constructor
  · intro h
    constructor
    · unfold mpegts_write_section1
      rw [if_neg (by unfold SECTION_LENGTH; omega)]
    · unfold sectionLength12 mpegts_section1_bytes
      simp only [List.getD, List.get?]
      have hb : buf.length + 5 + 4 < 1024 := by omega
      split
      · exact (lor_len_field (buf.length + 5 + 4) hb).2.trans (by omega)
      · exact (lor_len_field (buf.length + 5 + 4) hb).1.trans (by omega)
  · intro h
    unfold mpegts_write_section1
    rw [if_pos (by unfold SECTION_LENGTH; omega)]

set_option maxRecDepth 100000 in
/-- Claim C1, counterexample: a 1009-byte payload has
`payload_len + 9 = 1018 ≤ 1021`, so the claim says the call succeeds,
but the code rejects it (`tot_len = 1021 > SECTION_LENGTH`). -/
theorem C1_counterexample :
    mpegts_write_section1 0 15 PAT_TID 1 0 0 0 (List.replicate 1009 0) =
      none ∧
    (List.replicate 1009 0).length + 9 ≤ 1021 := by
  constructor
  · decide
  · decide

/-- Claim C1, witness: a 3-byte payload is accepted and its section
carries section_length 12. -/
theorem C1_amended_witness :
    (3 : Nat) + 9 ≤ 1017 ∧
    sectionLength12 (mpegts_section1_bytes SDT_TID 1 0 0 0 [1, 2, 3]) = 12 ∧
    mpegts_write_section1 0x11 15 SDT_TID 1 0 0 0 [1, 2, 3] =
      some (mpegts_write_section 0x11 15
        (mpegts_section1_bytes SDT_TID 1 0 0 0 [1, 2, 3])) :=
  ⟨by decide,
   by
    have h := (C1_amended_thm 0x11 15 SDT_TID 1 0 0 0 [1, 2, 3]).1
      (by decide)
    simpa using h.2,
   by
    have h := (C1_amended_thm 0x11 15 SDT_TID 1 0 0 0 [1, 2, 3]).1
      (by decide)
    exact h.1⟩

/-- Claim C2, counterexample: sid 8 has bit 3 set, so the claim says the
service descriptor type is 0xC0 (one-seg), but the code computes
`sid & (0x18 >> 3) = sid & 3 = 0` and writes 0x01. -/
theorem C2_counterexample :
    sdt_service_type 8 = 0x01 ∧ Nat.testBit 8 3 = true ∧
    sdt_service_type 8 ≠ 0xC0 := by decide

/-- Claim C2 (amended): the service_type byte (offset 7 of the SDT
service entry) is 0xC0 exactly when `sid & 3 ≠ 0` — the C expression
`sid & 0x18 >> 3` parses as `sid & (0x18 >> 3)` — and 0x01 otherwise;
the profile-1 services 0xC819 and 0xC800 do get 0xC0 and 0x01. -/
theorem C2_amended_thm : ∀ (sid : Nat) (p n : List Nat),
    (sdt_service_entry sid p n).getD 7 0 = sdt_service_type sid ∧
    (sdt_service_type sid = 0xC0 ↔ sid &&& 3 ≠ 0) ∧
    (sdt_service_type sid = 0x01 ↔ sid &&& 3 = 0) ∧
    sdt_service_type 0xC819 = 0xC0 ∧ sdt_service_type 0xC800 = 0x01 := by
  intro sid p n
  have h3 : (0x18 >>> 3 : Nat) = 3 := by decide
  refine ⟨?_, ?_, ?_, by decide, by decide⟩
  · simp [sdt_service_entry, List.getD]
  · unfold sdt_service_type
    rw [h3]
    split
    · simp_all
    · simp_all
  · unfold sdt_service_type
    rw [h3]
    split
    · simp_all
    · simp_all

/-- Claim C5: transmission profile 1 creates exactly two services with
`sid_fhd = ((ONID & 0x7FF) << 5) | (0 << 3) | 0` and
`sid_1seg = ((ONID & 0x7FF) << 5) | (3 << 3) | 1`; for ONID 0x0640 these
are 0xC800 and 0xC819, with consecutive PMT PIDs from the start PID. -/
theorem C5_thm :
    (∀ onid : Nat,
      (mpegts_init_profile1_services onid 0x1000).map Prod.fst =
        [((onid &&& 0x7FF) <<< 5) ||| (0 <<< 3) ||| 0,
         ((onid &&& 0x7FF) <<< 5) ||| (3 <<< 3) ||| 1] ∧
      (mpegts_init_profile1_services onid 0x1000).length = 2) ∧
    mpegts_init_profile1_services 0x0640 0x1000 =
      [(0xC800, 0x1000), (0xC819, 0x1001)] := by
  refine ⟨fun onid => ⟨?_, rfl⟩, by decide⟩
  simp [mpegts_init_profile1_services, calculated_FHD_service_ID,
        calculated_1SEG_service_ID]

/-- Claim C6: the code evaluates
`(473 + 6*(physical_channel - 14) + 1/7) * 7` in integer arithmetic, so
the `1/7` term is 0 and the emitted frequency field is one less than the
exact rational value `(473 + 6*(CH-14))*7 + 1` the claim (and the
comment in the code itself) states; shown at the default channel 20 and at both
ends of the option range 14..69. -/
theorem C6_thm :
    nit_frequency 20 = 3563 ∧
    nit_frequency 20 ≠ (473 + 6 * (20 - 14)) * 7 + 1 ∧
    nit_frequency 14 = 3311 ∧ nit_frequency 14 ≠ 3312 ∧
    nit_frequency 69 = 5621 ∧ nit_frequency 69 ≠ 5622 := by decide

/-- Claim C8, counterexample: at PCR = 0x3FFFFFFF the expression
`pcr % 0x3fffffff` in the code is 0, while the claimed `pcr mod 2^30` is
0x3FFFFFFF, so the four written bytes differ. -/
theorem C8_counterexample :
    m2ts_tp_extra_header 0x3fffffff ≠ be32 (0x3fffffff % 2 ^ 30) ∧
    m2ts_tp_extra_header 0x3fffffff = [0, 0, 0, 0] := by decide

/-- Claim C8 (amended): with m2ts mode enabled every 188-byte packet
write is immediately preceded by the 4-byte big-endian
`tp_extra_header`, whose value is the PCR reduced modulo `2^30 - 1`
(the literal 0x3FFFFFFF in the code), not modulo `2^30`; with m2ts mode off
the packet is written bare. -/
theorem C8_amended_thm : ∀ (pcr : Nat) (pkt : List Nat),
    section_write_packet true pcr pkt = be32 (pcr % (2 ^ 30 - 1)) ++ pkt ∧
    (be32 (pcr % (2 ^ 30 - 1))).length = 4 ∧
    section_write_packet false pcr pkt = pkt := by
  intro pcr pkt
  refine ⟨?_, rfl, rfl⟩
  show m2ts_tp_extra_header pcr ++ pkt = _
  unfold m2ts_tp_extra_header
  rw [show (0x3fffffff : Nat) = 2 ^ 30 - 1 by norm_num]

/-- Claim C9, counterexample: two consecutive packets without PTS — the
first is rejected, and because `first_pts_check` is only cleared after a
passing check, the second is rejected as well, contradicting the claim
that a missing PTS is no longer rejected after the first packet. -/
theorem C9_counterexample :
    first_pts_gate_run true [none, none] = [true, true] ∧
    first_pts_gate_run true [none, none] ≠ [true, false] := by decide

/-- Claim C9 (amended): a packet without PTS is rejected with
`AVERROR_INVALIDDATA` (before anything is emitted) while
`first_pts_check` is still set, and the flag survives the rejection;
the check is cleared by the first packet that passes it, after which a
missing PTS is never rejected again. -/
theorem C9_amended_thm :
    first_pts_gate true none = none ∧
    (∀ p : Option Int, p ≠ none → first_pts_gate true p = some false) ∧
    (∀ p : Option Int, first_pts_gate false p = some false) ∧
    (∀ l : List (Option Int),
      first_pts_gate_run false l = l.map fun _ => false) := by
  refine ⟨rfl, ?_, ?_, ?_⟩
  · intro p hp
    cases p with
    | none => exact absurd rfl hp
    | some v => rfl
  · intro p
    simp [first_pts_gate]
  · intro l
    induction l with
    | nil => rfl
    | cons a t ih => simp [first_pts_gate_run, first_pts_gate, ih]

/-- Claim C9, witness: a set PTS passes the gate, and once the check is
cleared a later missing PTS is accepted. -/
theorem C9_amended_witness :
    (some 42 : Option Int) ≠ none ∧
    first_pts_gate true (some 42) = some false ∧
    first_pts_gate_run false [none, some 3, none] =
      [false, false, false] := by
  refine ⟨by decide, C9_amended_thm.2.1 (some 42) (by decide), ?_⟩
  have h := C9_amended_thm.2.2.2 [none, some 3, none]
  simpa using h

end MpegTS

namespace MpegTS

/-- Finite check: the low nibble of the TS header byte 3 is the fresh
continuity counter, both for section packets (payload flag only) and
for PES packets (payload flag, counter, optional AF bit). -/
theorem nibble_of_byte3 : ∀ x : Nat, x < 16 →
    ((0x10 ||| x) &&& 0xff) &&& 0xf = x ∧
    (∀ b : Bool, ts_pes_byte3 x b &&& 0xf = x) := by decide

/-- Claim C10: `mpegts_init` sets every continuity counter (the five
section contexts, every service PMT context, every stream) to 15; the
section writer and the PES packetiser increment the counter mod 16
before writing it into a payload-carrying packet, so the first packet
on each PID carries continuity_counter `(15+1) mod 16 = 0`. -/
theorem C10_thm :
    mpegts_init_cc = ⟨15, 15, 15, 15, 15, 15, 15⟩ ∧
    (∀ (pid cc : Nat) (buf : List Nat), buf ≠ [] →
      ∃ p rest ccF, mpegts_write_section pid cc buf = (p :: rest, ccF) ∧
        p.getD 3 0 &&& 0xf = (cc + 1) &&& 0xf) ∧
    (∀ (cc : Nat) (af : Bool),
      ts_pes_byte3 ((cc + 1) &&& 0xf) af &&& 0xf = (cc + 1) &&& 0xf) ∧
    ((15 + 1) &&& 0xf : Nat) = 0 := by
  refine ⟨rfl, ?_, ?_, by decide⟩
  · intro pid cc buf hb
    unfold mpegts_write_section
    dsimp only
    cases h : buf.take (buf.length - 4) ++ be32 (crc32_mpeg2 (buf.take (buf.length - 4))) with
    | nil =>
      exfalso
      have := congrArg List.length h
      simp [be32] at this
    | cons s tl =>
      simp only [List.length_cons]
      rw [section_chunks]
      refine ⟨_, _, _, rfl, ?_⟩
      simp only [List.getD, List.get?, if_pos, List.cons_append, List.append_assoc]
      exact ((nibble_of_byte3 ((cc + 1) &&& 0xf)
        (by have := @Nat.and_le_right (cc + 1) 15; omega)).1)
  · intro cc af
    exact (nibble_of_byte3 ((cc + 1) &&& 0xf)
      (by have := @Nat.and_le_right (cc + 1) 15; omega)).2 af

end MpegTS

namespace MpegTS

/-- Claim C10, witness: writing a section with the freshly initialised
counter 15 yields a first packet with continuity_counter 0. -/
theorem C10_witness :
    ([0, 0, 0, 0] : List Nat) ≠ [] ∧
    ∃ p rest ccF,
      mpegts_write_section 0 mpegts_init_cc.pat_cc [0, 0, 0, 0] =
        (p :: rest, ccF) ∧ p.getD 3 0 &&& 0xf = 0 := by
  refine ⟨by decide, ?_⟩
  obtain ⟨p, rest, ccF, hp, hfield⟩ :=
    C10_thm.2.1 0 mpegts_init_cc.pat_cc [0, 0, 0, 0] (by decide)
  exact ⟨p, rest, ccF, hp, hfield.trans (by decide)⟩

/-- Every pair drawn in order from a list satisfies a reflexive-enough
relation when it holds for all ordered pairs of members. -/
theorem pairwise_of_forall_mem {α : Type} {r : α → α → Prop} :
    ∀ l : List α, (∀ a ∈ l, ∀ b ∈ l, r a b) → l.Pairwise r := by
  intro l
  induction l with
  | nil => intro _; exact List.Pairwise.nil
  | cons a t ih =>
    intro h
    exact List.Pairwise.cons
      (fun b hb => h a (List.mem_cons_self a t) b (List.mem_cons_of_mem a hb))
      (ih fun x hx y hy =>
        h x (List.mem_cons_of_mem a hx) y (List.mem_cons_of_mem a hy))

/-- Membership in a conditional singleton pins the element. -/
theorem mem_if_singleton {α : Type} {x a : α} {c : Bool}
    (h : a ∈ if c then [x] else []) : a = x := by
  cases c with
  | false => simp at h
  | true => simpa using h

/-- Members of the PAT block have rank at least 4. -/
theorem rank_of_mem_pat_block {a : SITable} {c : Bool} {ns : Nat}
    (h : a ∈ if c then SITable.pat :: (List.range ns).map SITable.pmt
             else []) : 4 ≤ siRank a := by
  cases c with
  | false => simp at h
  | true =>
    simp only [if_pos] at h
    rcases List.mem_cons.mp h with h1 | h2
    · subst h1; simp [siRank]
    · rcases List.mem_map.mp h2 with ⟨i, _, hi⟩
      subst hi; simp [siRank]

/-- The table list of one cadence cycle is sorted by `siRank`. -/
theorem retransmit_rank_sorted (st : SICadence) (f : Bool)
    (d : Option Int) :
    (retransmit_si_info st f d).1.Pairwise
      (fun a b => siRank a ≤ siRank b) := by
  unfold retransmit_si_info
  dsimp only
  refine List.pairwise_append.mpr ⟨?_, ?_, ?_⟩
  · refine List.pairwise_append.mpr ⟨?_, ?_, ?_⟩
    · refine List.pairwise_append.mpr ⟨?_, ?_, ?_⟩
      · refine List.pairwise_append.mpr ⟨?_, ?_, ?_⟩
        · cases sdtDue st d <;> simp
        · cases nitDue st d <;> simp
        · intro a ha b hb
          rw [mem_if_singleton ha, mem_if_singleton hb]
          simp [siRank]
      · cases totDue st d <;> simp
      · intro a ha b hb
        rw [mem_if_singleton hb]
        rcases List.mem_append.mp ha with h1 | h1
        · rw [mem_if_singleton h1]; simp [siRank]
        · rw [mem_if_singleton h1]; simp [siRank]
    · cases eitDue st d <;> simp
    · intro a ha b hb
      rw [mem_if_singleton hb]
      rcases List.mem_append.mp ha with h1 | h1
      · rcases List.mem_append.mp h1 with h2 | h2
        · rw [mem_if_singleton h2]; simp [siRank]
        · rw [mem_if_singleton h2]; simp [siRank]
      · rw [mem_if_singleton h1]; simp [siRank]
  · cases hp : patDue st f d with
    | false => simp
    | true =>
      simp only [if_pos]
      refine List.Pairwise.cons ?_ ?_
      · intro b hb
        rcases List.mem_map.mp hb with ⟨i, _, hi⟩
        subst hi; simp [siRank]
      · refine pairwise_of_forall_mem _ ?_
        intro a ha b hb
        rcases List.mem_map.mp ha with ⟨i, _, hi⟩
        rcases List.mem_map.mp hb with ⟨j, _, hj⟩
        subst hi; subst hj; simp [siRank]
  · intro a ha b hb
    have h4 := rank_of_mem_pat_block hb
    rcases List.mem_append.mp ha with h1 | h1
    · rcases List.mem_append.mp h1 with h2 | h2
      · rcases List.mem_append.mp h2 with h3 | h3
        · rw [mem_if_singleton h3]
          exact le_trans (by simp [siRank]) h4
        · rw [mem_if_singleton h3]
          exact le_trans (by simp [siRank]) h4
      · rw [mem_if_singleton h2]
        exact le_trans (by simp [siRank]) h4
    · rw [mem_if_singleton h1]
      exact le_trans (by simp [siRank]) h4

end MpegTS

namespace MpegTS

/-- Prepending one cadence cycle (its SI tables and its single non-SI
packet) to an output that already decomposes into cycles. -/
theorem cycles_cons {sis : List SITable} {pkt : TSOut}
    {outs1 : List TSOut} {cycles : List (List SITable × TSOut)}
    (h1 : outs1 = (cycles.map fun c => c.1.map TSOut.si ++ [c.2]).flatten)
    (h2 : ∀ c ∈ cycles,
      (∃ st1 f1 d1, c.1 = (retransmit_si_info st1 f1 d1).1) ∧
      ∀ t, c.2 ≠ TSOut.si t)
    (h3 : ∃ st1 f1 d1, sis = (retransmit_si_info st1 f1 d1).1)
    (h4 : ∀ t, pkt ≠ TSOut.si t) :
    ∃ cycles2 : List (List SITable × TSOut),
      sis.map TSOut.si ++ pkt :: outs1 =
        (cycles2.map fun c => c.1.map TSOut.si ++ [c.2]).flatten ∧
      ∀ c ∈ cycles2,
        (∃ st1 f1 d1, c.1 = (retransmit_si_info st1 f1 d1).1) ∧
        ∀ t, c.2 ≠ TSOut.si t := by
  refine ⟨(sis, pkt) :: cycles, ?_, ?_⟩
  · subst h1
    simp
  · intro c hc
    rcases List.mem_cons.mp hc with h5 | h5
    · subst h5
      exact ⟨h3, h4⟩
    · exact h2 c h5

/-- Every successful run of the packetisation loop decomposes into
cadence cycles: each cycle is the SI tables written by one
`retransmit_si_info` call followed by exactly one (non-SI) TS packet. -/
theorem write_pes_loop_cycles :
    ∀ (cfg : PesConfig) (key : Bool) (sid : Option Nat) (fuel : Nat)
      (st : LoopSt) (payload : List Nat) (outs : List TSOut) (stF : LoopSt),
    write_pes_loop cfg key sid fuel st payload = some (outs, stF) →
    ∃ cycles : List (List SITable × TSOut),
      outs = (cycles.map fun c => c.1.map TSOut.si ++ [c.2]).flatten ∧
      ∀ c ∈ cycles,
        (∃ st1 f1 d1, c.1 = (retransmit_si_info st1 f1 d1).1) ∧
        ∀ t, c.2 ≠ TSOut.si t := by
  intro cfg key sid fuel
  induction fuel with
  | zero =>
    intro st payload outs stF h
    unfold write_pes_loop at h
    split at h
    · injection h with h1
      injection h1 with h2 h3
      exact ⟨[], by simp [h2.symm], by simp⟩
    · cases h
  | succ n ih =>
    intro st payload outs stF h
    unfold write_pes_loop at h
    split at h
    · injection h with h1
      injection h1 with h2 h3
      exact ⟨[], by simp [h2.symm], by simp⟩
    · dsimp only at h
      split at h
      · split at h
        · cases h
        · rename_i outs1 stF1 heq
          injection h with h1
          injection h1 with h2 h3
          obtain ⟨cycles, hc1, hc2⟩ := ih _ _ _ _ heq
          rw [← h2]
          exact cycles_cons hc1 hc2 ⟨st.si, st.force_pat, st.dts, rfl⟩
            (fun t => by simp)
      · split at h
        · cases h
        · rename_i outs1 stF1 heq
          injection h with h1
          injection h1 with h2 h3
          obtain ⟨cycles, hc1, hc2⟩ := ih _ _ _ _ heq
          rw [← h2]
          exact cycles_cons hc1 hc2 ⟨st.si, st.force_pat, st.dts, rfl⟩
            (fun t => by simp)

end MpegTS

namespace MpegTS

/-- The optional PTS field is at most 5 bytes. -/
theorem pes_pts_seg_len : ∀ (f : Nat) (p : Option Int),
    (pes_pts_seg f p).length ≤ 5 := by
  intro f p
  cases p <;> simp [pes_pts_seg, write_pts]

/-- The optional DTS field is at most 5 bytes. -/
theorem pes_dts_seg_len : ∀ (p d : Option Int),
    (pes_dts_seg p d).length ≤ 5 := by
  intro p d
  unfold pes_dts_seg
  split <;> simp [write_pts]

/-- The optional part of the PES header is at most 54 bytes. -/
theorem pes_header_opt_len_le : ∀ (flags : Nat) (pE dE : Option Int)
    (dv am sub tel : Bool) (base : Nat),
    (pes_header_opt flags pE dE dv am sub tel base).length ≤ 54 := by
  intro flags pE dE dv am sub tel base
  unfold pes_header_opt
  simp only [List.length_append]
  have h1 := pes_pts_seg_len flags pE
  have h2 := pes_dts_seg_len pE dE
  have h3 : (if dv then [0x01, 0x81, 0x60] else ([] : List Nat)).length ≤ 3 := by
    cases dv <;> simp
  have h4 : (if am then [0x01, 0x81, 0x71] else ([] : List Nat)).length ≤ 3 := by
    cases am <;> simp
  have h5 : (if sub then [0x20, 0x00] else ([] : List Nat)).length ≤ 2 := by
    cases sub <;> simp
  have h6 : (if tel then List.replicate (0x24 - base) 0xff
             else ([] : List Nat)).length ≤ 36 := by
    cases tel
    · simp
    · simp only [if_true, List.length_replicate]
      omega
  omega

/-- The whole PES header is at most 63 bytes. -/
theorem pes_header_len_le : ∀ (cfg : PesConfig) (sid : Option Nat)
    (pts dts : Option Int) (ps : Nat),
    (pes_header cfg sid pts dts ps).1.length ≤ 63 := by
  intro cfg sid pts dts ps
  unfold pes_header
  dsimp only
  simp only [List.length_cons]
  have h := pes_header_opt_len_le
  exact le_trans (Nat.succ_le_succ (Nat.succ_le_succ (Nat.succ_le_succ
    (Nat.succ_le_succ (Nat.succ_le_succ (Nat.succ_le_succ
      (Nat.succ_le_succ (Nat.succ_le_succ (Nat.succ_le_succ
        (h _ _ _ _ _ _ _ _)))))))))) (by norm_num)

end MpegTS

namespace MpegTS

/-- The adaptation field built by `pes_af` serialises to at most 8 bytes
(length byte, flags byte, six PCR bytes). -/
theorem pes_af_bytes_len : ∀ (cfg : PesConfig) (key : Bool) (st : LoopSt)
    (w : Bool), (afBytes (pes_af cfg key st w).1).length ≤ 8 := by
  intro cfg key st w
  unfold pes_af
  dsimp only
  split
  · split
    · simp [set_af_flag, afBytes, write_pcr_bits]
    · simp [set_af_flag, afBytes]
  · split
    · simp [set_af_flag, afBytes, write_pcr_bits]
    · simp [afBytes]

/-- Finite check: the adaptation-field bit of TS header byte 3 is set
whenever the field exists or is created for stuffing. -/
theorem af_bit_decide : ∀ x : Nat, x < 16 →
    ts_pes_byte3 x true &&& 0x20 = 0x20 ∧
    ∀ b : Bool, ((ts_pes_byte3 x b ||| 0x20) &&& 0xff) &&& 0x20 = 0x20 := by
  decide

/-- A suffix stays a suffix under cons. -/
theorem isSuffix_cons {α : Type} {s t : List α} (a : α)
    (h : List.IsSuffix s t) : List.IsSuffix s (a :: t) := by
  obtain ⟨p, hp⟩ := h
  exact ⟨a :: p, by simp [hp]⟩

/-- A suffix stays a suffix under prepending a list. -/
theorem isSuffix_append_left {α : Type} {s t : List α} (p : List α)
    (h : List.IsSuffix s t) : List.IsSuffix s (p ++ t) := by
  obtain ⟨q, hq⟩ := h
  exact ⟨p ++ q, by rw [List.append_assoc, hq]⟩

/-- What one assembled TS packet of a PES looks like: exactly 188 bytes
of header+stuffing plus chunk; the chunk and the remainder reassemble
the payload (so nothing is ever appended after the payload bytes — all
padding lives in the adaptation field, before the PES data); byte 1 is
the one handed in; the PES header bytes sit immediately before the
chunk; and any packet longer than the maximal unstuffed header carries
an adaptation field. -/
theorem ts_pkt_assemble_spec :
    ∀ (b1 b2 cc1 : Nat) (af : Option (Nat × List Nat))
      (pesH payload2 : List Nat),
    (afBytes af).length ≤ 8 → pesH.length ≤ 63 → cc1 < 16 →
    ((ts_pkt_assemble b1 b2 cc1 af pesH payload2).1 ++
      (ts_pkt_assemble b1 b2 cc1 af pesH payload2).2.1).length =
        TS_PACKET_SIZE ∧
    (ts_pkt_assemble b1 b2 cc1 af pesH payload2).2.1 ++
      (ts_pkt_assemble b1 b2 cc1 af pesH payload2).2.2 = payload2 ∧
    (ts_pkt_assemble b1 b2 cc1 af pesH payload2).1.getD 1 0 = b1 ∧
    List.IsSuffix pesH (ts_pkt_assemble b1 b2 cc1 af pesH payload2).1 ∧
    (75 < (ts_pkt_assemble b1 b2 cc1 af pesH payload2).1.length →
      (ts_pkt_assemble b1 b2 cc1 af pesH payload2).1.getD 3 0 &&& 0x20 =
        0x20) := by
  intro b1 b2 cc1 af pesH payload2 haf hpes hcc
  rcases af with _ | ⟨fl, pcrB⟩
  · simp only [afBytes, List.length_nil] at haf
    unfold ts_pkt_assemble
    dsimp only [afBytes, Option.isSome]
    refine ⟨?_, List.take_append_drop _ _, ?_, ?_, ?_⟩
    · split <;> try split
      all_goals
        simp only [TS_PACKET_SIZE, List.length_append, List.length_take,
          List.length_cons, List.length_nil, List.append_nil,
          List.length_replicate] at *
      all_goals omega
    · split <;> try split
      all_goals simp [List.getD]
    · split <;> try split
      all_goals
        repeat
          first
          | exact ⟨[], rfl⟩
          | exact List.suffix_append _ _
          | apply isSuffix_cons
          | apply isSuffix_append_left
    · split <;> try split
      all_goals intro hlong
      all_goals
        first
        | (exfalso
           simp only [TS_PACKET_SIZE, List.length_append, List.length_cons,
             List.length_nil, List.append_nil] at *
           omega)
        | simp [List.getD, (af_bit_decide cc1 hcc).2 false]
  · simp only [afBytes, List.length_cons] at haf
    unfold ts_pkt_assemble
    dsimp only [afBytes, Option.isSome]
    refine ⟨?_, List.take_append_drop _ _, ?_, ?_, ?_⟩
    · split <;> try split
      all_goals
        simp only [TS_PACKET_SIZE, List.length_append, List.length_take,
          List.length_cons, List.length_nil, List.append_nil,
          List.length_replicate] at *
      all_goals omega
    · split <;> try split
      all_goals simp [List.getD]
    · split <;> try split
      all_goals
        repeat
          first
          | exact ⟨[], rfl⟩
          | exact List.suffix_append _ _
          | apply isSuffix_cons
          | apply isSuffix_append_left
    · split <;> try split
      all_goals intro hlong
      all_goals
        first
        | (exfalso
           simp only [TS_PACKET_SIZE, List.length_append, List.length_cons,
             List.length_nil, List.append_nil] at *
           omega)
        | simp [List.getD, (af_bit_decide cc1 hcc).1]

end MpegTS

namespace MpegTS

/-- Finite check: the payload_unit_start bit of TS header byte 1. -/
theorem pusi_bit : ∀ y : Nat, y < 32 →
    ((y ||| 0x40) &&& 0xff) &&& 0x40 = 0x40 ∧
    ((y ||| 0) &&& 0xff) &&& 0x40 = 0 := by decide

theorem pesOuts_nil : pesOuts [] = [] := rfl

theorem pesOuts_cons_si (t : SITable) (l : List TSOut) :
    pesOuts (TSOut.si t :: l) = pesOuts l := by
  simp [pesOuts, List.filterMap_cons]

theorem pesOuts_cons_fill (b : List Nat) (l : List TSOut) :
    pesOuts (TSOut.fill b :: l) = pesOuts l := by
  simp [pesOuts, List.filterMap_cons]

theorem pesOuts_cons_pes (h c : List Nat) (l : List TSOut) :
    pesOuts (TSOut.pes h c :: l) = (h, c) :: pesOuts l := by
  simp [pesOuts, List.filterMap_cons]

theorem pesOuts_map_si_append (ts : List SITable) (l : List TSOut) :
    pesOuts (ts.map TSOut.si ++ l) = pesOuts l := by
  induction ts with
  | nil => rfl
  | cons a t ih => simpa [pesOuts_cons_si] using ih

/-- With `is_start` off the payload is passed through unchanged. -/
theorem effPayload_false (cfg : PesConfig) (x : List Nat) :
    effPayload cfg false x = x := by
  unfold effPayload
  split
  · rename_i h
    exact (List.isEmpty_iff.mp h).symm
  · simp

/-- The continuity counter after the increment fits a nibble. -/
theorem cc1_lt (cc : Nat) : (cc + 1) &&& 0xf < 16 := by
  have := @Nat.and_le_right (cc + 1) 15
  omega

/-- What one `pes_emit` call produces: a 188-byte packet whose payload
chunk reassembles with the remainder into the (possibly
subtitle-extended) payload; the next state has `is_start` cleared and
the same PID; the payload_unit_start bit of the packet mirrors
`is_start`; the first packet carries the PES start code; oversized
headers carry an adaptation field. -/
theorem pes_emit_spec :
    ∀ (cfg : PesConfig) (key : Bool) (sid : Option Nat) (st : LoopSt)
      (payload : List Nat) (w : Bool),
    st.pid < 0x2000 →
    ((pes_emit cfg key sid st payload w).1.1 ++
      (pes_emit cfg key sid st payload w).1.2).length = TS_PACKET_SIZE ∧
    (pes_emit cfg key sid st payload w).1.2 ++
      (pes_emit cfg key sid st payload w).2.2 =
      (if st.is_start && decide (cfg.codec_type = CodecType.subtitle) &&
          decide (cfg.codec_id = CodecId.dvb_subtitle) then
        payload ++ [0xff]
      else payload) ∧
    (pes_emit cfg key sid st payload w).2.1.is_start = false ∧
    (pes_emit cfg key sid st payload w).2.1.pid = st.pid ∧
    (pes_emit cfg key sid st payload w).1.1.getD 1 0 &&& 0x40 =
      (if st.is_start then 0x40 else 0) ∧
    (st.is_start = true →
      ∃ pre tl, (pes_emit cfg key sid st payload w).1.1 =
        pre ++ 0x00 :: 0x00 :: 0x01 :: tl) ∧
    (75 < (pes_emit cfg key sid st payload w).1.1.length →
      (pes_emit cfg key sid st payload w).1.1.getD 3 0 &&& 0x20 =
        0x20) := by
  intro cfg key sid st payload w hpid
  have hy : st.pid >>> 8 < 32 := by
    rw [Nat.shiftRight_eq_div_pow]
    omega
  have hpes : (if st.is_start then
      pes_header cfg sid st.pts st.dts payload.length
    else ([], st.pts, st.dts)).1.length ≤ 63 := by
    split
    · exact pes_header_len_le cfg sid st.pts st.dts payload.length
    · simp
  have hspec := ts_pkt_assemble_spec
    (((st.pid >>> 8) ||| (if st.is_start then 0x40 else 0)) &&& 0xff)
    (st.pid &&& 0xff) ((st.cc + 1) &&& 0xf)
    (pes_af cfg key st w).1
    (if st.is_start then
      pes_header cfg sid st.pts st.dts payload.length
    else ([], st.pts, st.dts)).1
    (if st.is_start && decide (cfg.codec_type = CodecType.subtitle) &&
        decide (cfg.codec_id = CodecId.dvb_subtitle) then
      payload ++ [0xff]
    else payload)
    (pes_af_bytes_len cfg key st w) hpes (cc1_lt st.cc)
  obtain ⟨hs1, hs2, hs3, hs4, hs5⟩ := hspec
  unfold pes_emit
  dsimp only
  refine ⟨hs1, hs2, rfl, rfl, ?_, ?_, hs5⟩
  · rw [hs3]
    cases hst : st.is_start with
    | false =>
      simpa using (pusi_bit (st.pid >>> 8) hy).2
    | true =>
      simpa using (pusi_bit (st.pid >>> 8) hy).1
  · intro hst
    obtain ⟨pre, hpre⟩ := hs4
    rw [hst] at hpre ⊢
    refine ⟨pre, ?_, ?_⟩
    · exact (pes_header cfg sid st.pts st.dts payload.length).1.drop 3
    · rw [← hpre]
      simp [pes_header]

/-- The loop invariant behind claim C3, by induction on fuel: over a
whole successful run, the PES packets are each exactly 188 bytes with
all stuffing inside the adaptation field; their payload chunks
concatenate to exactly the (subtitle-extended) payload, so no padding
ever follows the payload; the first PES packet (and only the first)
has payload_unit_start set and carries the PES start code. -/
theorem write_pes_loop_spec :
    ∀ (cfg : PesConfig) (key : Bool) (sid : Option Nat) (fuel : Nat)
      (st : LoopSt) (payload : List Nat) (outs : List TSOut)
      (stF : LoopSt),
    st.pid < 0x2000 →
    write_pes_loop cfg key sid fuel st payload = some (outs, stF) →
    ((pesOuts outs).map Prod.snd).flatten =
      effPayload cfg st.is_start payload ∧
    (∀ hc ∈ pesOuts outs,
      (hc.1 ++ hc.2).length = TS_PACKET_SIZE ∧
      (75 < hc.1.length → hc.1.getD 3 0 &&& 0x20 = 0x20)) ∧
    (st.is_start = false →
      ∀ hc ∈ pesOuts outs, hc.1.getD 1 0 &&& 0x40 = 0) ∧
    (st.is_start = true →
      match pesOuts outs with
      | [] => payload = []
      | (h, _) :: rest =>
        h.getD 1 0 &&& 0x40 = 0x40 ∧
        (∀ hc ∈ rest, hc.1.getD 1 0 &&& 0x40 = 0) ∧
        ∃ pre tl, h = pre ++ 0x00 :: 0x00 :: 0x01 :: tl) := by
  intro cfg key sid fuel
  induction fuel with
  | zero =>
    intro st payload outs stF hpid h
    unfold write_pes_loop at h
    split at h
    · rename_i hemp
      injection h with h1
      injection h1 with h2 h3
      subst h2
      refine ⟨?_, by simp [pesOuts_nil], by simp [pesOuts_nil], ?_⟩
      · simp [pesOuts_nil, effPayload, hemp]
      · intro _
        simp only [pesOuts_nil]
        exact List.isEmpty_iff.mp hemp
    · cases h
  | succ n ih =>
    intro st payload outs stF hpid h
    unfold write_pes_loop at h
    split at h
    · rename_i hemp
      injection h with h1
      injection h1 with h2 h3
      subst h2
      refine ⟨?_, by simp [pesOuts_nil], by simp [pesOuts_nil], ?_⟩
      · simp [pesOuts_nil, effPayload, hemp]
      · intro _
        simp only [pesOuts_nil]
        exact List.isEmpty_iff.mp hemp
    · rename_i hemp
      dsimp only at h
      split at h
      · -- filler branch
        split at h
        · cases h
        · rename_i outs1 stF1 heq
          injection h with h1
          injection h1 with h2 h3
          subst h2
          have hrec := ih _ _ _ _ (by exact hpid) heq
          simpa [pesOuts_map_si_append, pesOuts_cons_fill] using hrec
      · -- emit branch
        split at h
        · cases h
        · rename_i outs1 stF1 heq
          injection h with h1
          injection h1 with h2 h3
          subst h2
          obtain ⟨he1, he2, he3, he4, he5, he6, he7⟩ :=
            pes_emit_spec cfg key sid
              { st with
                si := (retransmit_si_info st.si st.force_pat st.dts).2,
                force_pat := false,
                pcr_packet_count := (pes_pcr_step cfg
                  { st with
                    si := (retransmit_si_info st.si st.force_pat
                      st.dts).2,
                    force_pat := false }).1 }
              payload
              (pes_pcr_step cfg
                { st with
                  si := (retransmit_si_info st.si st.force_pat st.dts).2,
                  force_pat := false }).2
              (by exact hpid)
          have hrec := ih _ _ _ _ (by rw [he4]; exact hpid) heq
          rw [he3] at hrec
          obtain ⟨hr1, hr2, hr3, _⟩ := hrec
          have hr3f := hr3 rfl
          rw [effPayload_false] at hr1
          simp only [pesOuts_map_si_append, pesOuts_cons_pes]
          refine ⟨?_, ?_, ?_, ?_⟩
          · show (pes_emit _ _ _ _ _ _).1.2 ++ _ = _
            rw [hr1, he2]
            unfold effPayload
            rw [if_neg hemp]
          · intro hc hmem
            rcases List.mem_cons.mp hmem with h4 | h4
            · subst h4
              exact ⟨he1, he7⟩
            · exact hr2 hc h4
          · intro hst hc hmem
            rcases List.mem_cons.mp hmem with h4 | h4
            · subst h4
              show (pes_emit _ _ _ _ _ _).1.1.getD 1 0 &&& 0x40 = 0
              rw [he5]
              simp [hst]
            · exact hr3f hc h4
          · intro hst
            refine ⟨?_, hr3f, ?_⟩
            · show (pes_emit _ _ _ _ _ _).1.1.getD 1 0 &&& 0x40 = 0x40
              rw [he5]
              simp [hst]
            · exact he6 (by exact hst)

end MpegTS

namespace MpegTS

/-- Claim C3: every call to `mpegts_write_pes` (nonempty payload) emits
its PES as an integer number of 188-byte TS packets; the first of them
— and only the first — has payload_unit_start set and carries the PES
header (the 0x00 0x00 0x01 start code sits in its header region); the
payload chunks of the packets concatenate to exactly the PES data, so
the short final packet is padded by growing the adaptation field (any
packet with more than the maximal 75 header bytes carries one), never
by bytes after the payload. -/
theorem C3_thm :
    ∀ (cfg : PesConfig) (key : Bool) (sid : Option Nat) (fuel : Nat)
      (st0 : LoopSt) (payload : List Nat) (pts dts : Option Int)
      (outs : List TSOut) (stF : LoopSt),
    st0.pid < 0x2000 → payload ≠ [] →
    mpegts_write_pes cfg key sid fuel st0 payload pts dts =
      some (outs, stF) →
    (∀ hc ∈ pesOuts outs, (hc.1 ++ hc.2).length = TS_PACKET_SIZE) ∧
    ((pesOuts outs).map Prod.snd).flatten = effPayload cfg true payload ∧
    (∀ hc ∈ pesOuts outs,
      75 < hc.1.length → hc.1.getD 3 0 &&& 0x20 = 0x20) ∧
    ∃ h c rest, pesOuts outs = (h, c) :: rest ∧
      h.getD 1 0 &&& 0x40 = 0x40 ∧
      (∀ hc ∈ rest, hc.1.getD 1 0 &&& 0x40 = 0) ∧
      ∃ pre tl, h = pre ++ 0x00 :: 0x00 :: 0x01 :: tl := by
  intro cfg key sid fuel st0 payload pts dts outs stF hpid hpay hrun
  unfold mpegts_write_pes at hrun
  dsimp only at hrun
  split at hrun
  · cases hrun
  · rename_i outs1 stF1 heq
    injection hrun with h1
    injection h1 with h2 h3
    subst h2
    obtain ⟨hs1, hs2, _, hs4⟩ :=
      write_pes_loop_spec cfg key sid fuel _ payload outs1 stF1
        (by exact hpid) heq
    have hs4t := hs4 rfl
    refine ⟨fun hc hm => (hs2 hc hm).1, hs1, fun hc hm => (hs2 hc hm).2,
      ?_⟩
    cases hpo : pesOuts outs1 with
    | nil =>
      rw [hpo] at hs4t
      exact absurd hs4t hpay
    | cons hd rest =>
      rw [hpo] at hs4t
      obtain ⟨hb, hrest, hpre⟩ := hs4t
      exact ⟨hd.1, hd.2, rest, rfl, hb, hrest, hpre⟩

/-- Claim C3, witness: a three-byte video payload becomes one 188-byte
TS packet whose chunks reassemble the payload. -/
theorem C3_witness :
    ∃ r, mpegts_write_pes pesCfgX false none 4 pesStX [9, 8, 7]
        none none = some r ∧
      (∀ hc ∈ pesOuts r.1, (hc.1 ++ hc.2).length = TS_PACKET_SIZE) ∧
      ((pesOuts r.1).map Prod.snd).flatten = [9, 8, 7] := by
  obtain ⟨r, hr⟩ : ∃ r, mpegts_write_pes pesCfgX false none 4 pesStX
      [9, 8, 7] none none = some r := ⟨_, rfl⟩
  obtain ⟨h1, h2, _, _⟩ := C3_thm pesCfgX false none 4 pesStX [9, 8, 7]
    none none r.1 r.2 (by decide) (by decide) (by rw [hr])
  exact ⟨r, hr, h1, h2.trans (by decide)⟩

/-- Claim C4: whichever SI tables are due in a cadence cycle are written
in the fixed order SDT, NIT, TOT, EIT, PAT — the PAT immediately
followed by every service PMT — equivalently, the emitted table kinds
are sorted by their position in that order; and every successful
packetiser run decomposes into cycles in which all the SI writes of the
cycle go to the sink before the single TS packet of the cycle, so the tables
precede the TS packet of the PES payload that triggered them. -/
theorem C4_thm :
    (∀ (st : SICadence) (f : Bool) (d : Option Int),
      (retransmit_si_info st f d).1 =
        (if sdtDue st d then [SITable.sdt] else []) ++
        (if nitDue st d then [SITable.nit] else []) ++
        (if totDue st d then [SITable.tot] else []) ++
        (if eitDue st d then [SITable.eit] else []) ++
        (if patDue st f d then
          SITable.pat :: (List.range st.nb_services).map SITable.pmt
        else []) ∧
      (retransmit_si_info st f d).1.Pairwise
        (fun a b => siRank a ≤ siRank b)) ∧
    (∀ (cfg : PesConfig) (key : Bool) (sid : Option Nat) (fuel : Nat)
       (st : LoopSt) (payload : List Nat) (outs : List TSOut)
       (stF : LoopSt),
      write_pes_loop cfg key sid fuel st payload = some (outs, stF) →
      ∃ cycles : List (List SITable × TSOut),
        outs = (cycles.map fun c => c.1.map TSOut.si ++ [c.2]).flatten ∧
        ∀ c ∈ cycles,
          (∃ st1 f1 d1, c.1 = (retransmit_si_info st1 f1 d1).1) ∧
          ∀ t, c.2 ≠ TSOut.si t) :=
  ⟨fun st f d => ⟨rfl, retransmit_rank_sorted st f d⟩,
   write_pes_loop_cycles⟩

/-- Claim C4, witness: with the PAT due (forced) and nothing else, the
cycle writes exactly PAT, PMT 0, PMT 1 in order, and a concrete
packetiser run decomposes into SI-then-packet cycles. -/
theorem C4_witness :
    (retransmit_si_info cadenceX true none).1 =
      [SITable.pat, SITable.pmt 0, SITable.pmt 1] ∧
    (retransmit_si_info cadenceX true none).1.Pairwise
      (fun a b => siRank a ≤ siRank b) ∧
    ∃ r, write_pes_loop pesCfgX false none 4 pesStX [5] = some r ∧
      ∃ cycles : List (List SITable × TSOut),
        r.1 = (cycles.map fun c => c.1.map TSOut.si ++ [c.2]).flatten ∧
        ∀ c ∈ cycles,
          (∃ st1 f1 d1, c.1 = (retransmit_si_info st1 f1 d1).1) ∧
          ∀ t, c.2 ≠ TSOut.si t := by
  refine ⟨by decide, (C4_thm.1 cadenceX true none).2, ?_⟩
  obtain ⟨r, hr⟩ : ∃ r, write_pes_loop pesCfgX false none 4 pesStX [5] =
      some r := ⟨_, rfl⟩
  exact ⟨r, hr, C4_thm.2 pesCfgX false none 4 pesStX [5] r.1 r.2
    (by rw [hr])⟩

/-- Claim C7: in the PES header the 5-byte DTS field is written, and
flag bit 0x40 set, exactly when both PTS and DTS are present and
differ; and the 16-bit PES_packet_length is written as zero for every
video stream when `omit_video_pes_length` is on (its default) and
whenever payload size plus header length plus 3 exceeds 0xFFFF. -/
theorem C7_thm :
    ∀ (pts dts : Option Int) (dv am : Bool) (cfg : PesConfig)
      (ps hl : Nat),
    ((pes_flags pts dts dv am &&& 0x40 = 0x40) ↔
      (pts.isSome = true ∧ dts.isSome = true ∧ dts ≠ pts)) ∧
    (pes_dts_seg pts dts ≠ [] ↔
      pes_flags pts dts dv am &&& 0x40 = 0x40) ∧
    (pes_dts_seg pts dts = [] ∨ (pes_dts_seg pts dts).length = 5) ∧
    (cfg.omit_video_pes_length = true ∧
        cfg.codec_type = CodecType.video →
      pes_packet_length cfg ps hl = 0) ∧
    (0xffff < ps + hl + 3 → pes_packet_length cfg ps hl = 0) := by
  intro pts dts dv am cfg ps hl
  refine ⟨?_, ?_, ?_, ?_, ?_⟩
  · unfold pes_flags
    split_ifs with h1 h2 h3 <;> simp_all <;> decide
  · unfold pes_dts_seg pes_flags
    split_ifs with h1 h2 h3 <;> simp_all [write_pts] <;> decide
  · unfold pes_dts_seg
    split_ifs <;> simp [write_pts]
  · intro hv
    unfold pes_packet_length
    dsimp only
    rw [if_pos hv]
  · intro hbig
    unfold pes_packet_length
    dsimp only
    split_ifs <;> omega

/-- Claim C7, witness: with PTS 7 and DTS 9 the DTS flag is set and the
field present; a 100-byte video payload with the default
`omit_video_pes_length` gets PES_packet_length 0. -/
theorem C7_witness :
    ((some 7 : Option Int).isSome = true ∧
      (some 9 : Option Int).isSome = true ∧
      (some 9 : Option Int) ≠ some 7) ∧
    pes_flags (some 7) (some 9) false false &&& 0x40 = 0x40 ∧
    pes_dts_seg (some 7) (some 9) ≠ [] ∧
    (pesCfgX.omit_video_pes_length = true ∧
      pesCfgX.codec_type = CodecType.video) ∧
    pes_packet_length pesCfgX 100 13 = 0 := by
  refine ⟨by decide, ?_, ?_, by decide, ?_⟩
  · exact ((C7_thm (some 7) (some 9) false false pesCfgX 0 0).1).mpr
      (by decide)
  · exact ((C7_thm (some 7) (some 9) false false pesCfgX 0 0).2.1).mpr
      (((C7_thm (some 7) (some 9) false false pesCfgX 0 0).1).mpr
        (by decide))
  · exact (C7_thm (some 7) (some 9) false false pesCfgX 100 13).2.2.2.1
      (by decide)

end MpegTS
